import Mathlib

/-!
Shallow embedding of `src/invoicer/nexudus.py` from nexudus-usaepay-gateway.

The local database (SQLAlchemy tables `Member` and `Invoice`) is modelled as a
`Store` holding a list of rows per table; a SQLAlchemy query
`filter_by(key=k).one_or_none()` is modelled by `one_or_none`, which returns
the unique matching row, reports no row, or reports that several rows match
(the `MultipleResultsFound` exception path).  In-place ORM attribute updates
on the row returned by a query are modelled by mapping the update over the
unique matching row; `db_sess.add` appends a row; `query(...).delete()`
filters the matching rows out.  `datetime.datetime.now()` is passed in as a
`now : Nat` parameter, `config.PROCESS_AUTOMATICALLY` as a `cfg : Bool`
parameter, and Python's `float(...)` of the remote `TotalAmount` as an exact
rational value.  Remote records are modelled as structures carrying exactly
the keys the reconcilers read; the missing-key (`KeyError`) control flow of
`sync_table` is modelled separately and generically by `sync_table_callback`
over fallible per-record actions, because on well-formed records the
reconcilers never raise.
-/

namespace NexudusGateway

/-- Local `Member` row (columns as assigned in `add_or_overwrite_member`). -/
structure Member where
  nexudus_user_id : Nat
  fullname : String
  billing_name : String
  email : String
  routing_number : String
  account_number : String
  process_automatically : Bool
deriving DecidableEq

/-- Local `Invoice` row (columns as assigned in `add_or_overwrite_invoice`). -/
structure Invoice where
  nexudus_invoice_id : Nat
  nexudus_user_id : Nat
  nexudus_space_id : Nat
  time_created : Nat
  amount : Rat
  finalized : Bool
  txn_id : Option String
  txn_status : String
  txn_statuscode : Option Nat
deriving DecidableEq

/-- The local database: one list of rows per table. -/
structure Store where
  members : List Member
  invoices : List Invoice
deriving DecidableEq

/-- Remote Nexudus coworker record: the keys read by `add_or_overwrite_member`
(`Id`, `FullName`, `BillingName`, `Email`, `BankBranch`, `BankAccount`). -/
structure MemberRecord where
  Id : Nat
  FullName : String
  BillingName : String
  Email : String
  BankBranch : String
  BankAccount : String
deriving DecidableEq

/-- Remote Nexudus invoice record: the keys read by `add_or_overwrite_invoice`
(`Id`, `CoworkerId`, `BusinessId`, `TotalAmount`). -/
structure InvoiceRecord where
  Id : Nat
  CoworkerId : Nat
  BusinessId : Nat
  TotalAmount : Rat
deriving DecidableEq

/-- Outcome of a SQLAlchemy `one_or_none()` query. -/
inductive LookupResult (α : Type) where
  | noRow : LookupResult α
  | oneRow (a : α) : LookupResult α
  | multipleRows : LookupResult α
deriving DecidableEq

/-- `query(...).filter_by(p).one_or_none()`: `noRow` for zero matches, the
match for exactly one, and `multipleRows` for the `MultipleResultsFound`
exception raised on two or more. -/
def one_or_none {α : Type} (p : α → Bool) (l : List α) : LookupResult α :=
  match l.filter p with
  | [] => .noRow
  | [a] => .oneRow a
  | _ :: _ :: _ => .multipleRows

/-- Python's `str.strip()`: drop whitespace from both ends.  (Implemented
directly on the character list so that it evaluates by kernel reduction;
`String.trim` is extensionally the same operation.) -/
def py_strip (s : String) : String :=
  ⟨((s.data.dropWhile Char.isWhitespace).reverse.dropWhile Char.isWhitespace).reverse⟩

/-- `nstrip` (nexudus.py, lines 323-328): stripped string, or `None` for a
falsy (empty) input. -/
def nstrip (s : String) : Option String :=
  if s == "" then none else some (py_strip s)

/-- Python truthiness of an `Optional[str]`: `None` and `""` are falsy. -/
def truthy_opt : Option String → Bool
  | none => false
  | some t => !(t == "")

/-- The condition `nstrip(routing_number) and nstrip(account_number)`
(lines 332-333): both bank fields non-blank after stripping. -/
def bank_populated (r : MemberRecord) : Bool :=
  truthy_opt (nstrip r.BankBranch) && truthy_opt (nstrip r.BankAccount)

/-- Field assignments of lines 311-320: every descriptive column is
unconditionally overwritten from the remote record (`billing_name` falls back
to `FullName` when the remote `BillingName` is falsy); `process_automatically`
is supplied by the caller according to lines 330-340. -/
def member_fields_from (r : MemberRecord) (auto : Bool) : Member :=
  { nexudus_user_id := r.Id
    fullname := r.FullName
    billing_name := if r.BillingName == "" then r.FullName else r.BillingName
    email := r.Email
    routing_number := r.BankBranch
    account_number := r.BankAccount
    process_automatically := auto }

/-- Reconciling a remote record onto an already-stored row: descriptive
fields overwritten; `process_automatically` preserved when the bank fields
are populated, forced to `false` otherwise (lines 311-340 with
`already_stored = True`). -/
def update_member (r : MemberRecord) (m : Member) : Member :=
  member_fields_from r (if bank_populated r then m.process_automatically else false)

/-- A freshly created row (`models.Member()`): descriptive fields from the
record; `process_automatically` set to the configured default when the bank
fields are populated, `false` otherwise (lines 306-340 with
`already_stored = False`). -/
def new_member (cfg : Bool) (r : MemberRecord) : Member :=
  member_fields_from r (if bank_populated r then cfg else false)

/-- The in-place ORM update of the unique row matching the record's `Id`,
expressed as a map over the table. -/
def member_update_step (r : MemberRecord) (m : Member) : Member :=
  if m.nexudus_user_id == r.Id then update_member r m else m

/-- Effect of `add_or_overwrite_member` on the `Member` table (lines 291-347):
on `MultipleResultsFound`, delete every row with this `Id` and insert a fresh
row; on no match, insert a fresh row; on a unique match, update it in place. -/
def member_table_step (cfg : Bool) (r : MemberRecord) (l : List Member) : List Member :=
  match one_or_none (fun m => m.nexudus_user_id == r.Id) l with
  | .multipleRows =>
      (l.filter (fun m => !(m.nexudus_user_id == r.Id))) ++ [new_member cfg r]
  | .noRow => l ++ [new_member cfg r]
  | .oneRow _ => l.map (member_update_step r)

/-- `add_or_overwrite_member(record, db_sess)` (lines 279-347). -/
def add_or_overwrite_member (cfg : Bool) (r : MemberRecord) (s : Store) : Store :=
  { s with members := member_table_step cfg r s.members }

/-- The gate of lines 230-240: the invoice is skipped exactly when the member
lookup finds a unique row whose `process_automatically` is falsy.  When the
lookup raises `MultipleResultsFound` the code only warns and proceeds, and
when no member is found it proceeds as well. -/
def gate_skips (members : List Member) (r : InvoiceRecord) : Bool :=
  match one_or_none (fun m => m.nexudus_user_id == r.CoworkerId) members with
  | .oneRow m => !m.process_automatically
  | _ => false

/-- The fresh `models.Invoice()` of lines 257-266. -/
def new_invoice (now : Nat) (r : InvoiceRecord) : Invoice :=
  { nexudus_invoice_id := r.Id
    nexudus_user_id := r.CoworkerId
    nexudus_space_id := r.BusinessId
    time_created := now
    amount := r.TotalAmount
    finalized := false
    txn_id := none
    txn_status := "Not processed"
    txn_statuscode := none }

/-- Effect of `add_or_overwrite_invoice` on the `Invoice` table
(lines 242-276): after the gate, a unique existing row is left untouched; on
`MultipleResultsFound` every row with this `Id` is deleted and a fresh row
inserted; on no match a fresh row is inserted. -/
def invoice_table_step (members : List Member) (now : Nat) (r : InvoiceRecord)
    (invs : List Invoice) : List Invoice :=
  if gate_skips members r then invs
  else
    match one_or_none (fun i => i.nexudus_invoice_id == r.Id) invs with
    | .oneRow _ => invs
    | .noRow => invs ++ [new_invoice now r]
    | .multipleRows =>
        (invs.filter (fun i => !(i.nexudus_invoice_id == r.Id))) ++ [new_invoice now r]

/-- `add_or_overwrite_invoice(record, db_sess)` (lines 212-276): reads the
`Member` table for the gate, writes only the `Invoice` table. -/
def add_or_overwrite_invoice (now : Nat) (r : InvoiceRecord) (s : Store) : Store :=
  { s with invoices := invoice_table_step s.members now r s.invoices }

/-- `sync_table` (lines 350-379) driving `process_batch`: the remote feed is
the list of record batches yielded by `get_records`, and the per-record
callback is folded over every record of every batch in arrival order.  (The
`KeyError` isolation of the inner callback is modelled by
`sync_table_callback` below; on well-formed records the reconcilers never
raise, and this pure fold is the resulting behaviour.) -/
def sync_table {R : Type} (cb : R → Store → Store) (batches : List (List R))
    (s : Store) : Store :=
  batches.foldl (fun st recs => recs.foldl (fun st2 r => cb r st2) st) s

/-- `sync_member_table` (lines 382-402): sync the `Member` table from a feed
of coworker record batches. -/
def sync_member_table (cfg : Bool) (batches : List (List MemberRecord)) (s : Store) : Store :=
  sync_table (add_or_overwrite_member cfg) batches s

/-- `sync_invoice_table` (lines 405-426): sync the `Invoice` table from a feed
of unpaid-invoice record batches. -/
def sync_invoice_table (now : Nat) (batches : List (List InvoiceRecord)) (s : Store) : Store :=
  sync_table (add_or_overwrite_invoice now) batches s

/-- One page of the Nexudus paged read protocol: total item count,
continuation flag, record batch. -/
structure NexudusPage (α : Type) where
  TotalItems : Nat
  HasNextPage : Bool
  Records : List α

/-- Outcome of draining the `get_records` generator: the batches yielded, and
whether the sequence ended normally, by raising
`MultipleResultsFoundException`, or by running out of fuel (an artifact of
the embedding: the Python loop would simply keep requesting pages). -/
inductive FetchOutcome (α : Type) where
  | ok (batches : List (List α)) : FetchOutcome α
  | multipleResultsFound (batches : List (List α)) : FetchOutcome α
  | outOfFuel (batches : List (List α)) : FetchOutcome α
deriving DecidableEq

/-- Prepend an already-yielded batch to the later outcome of the generator. -/
def FetchOutcome.consBatch {α : Type} (b : List α) : FetchOutcome α → FetchOutcome α
  | .ok bs => .ok (b :: bs)
  | .multipleResultsFound bs => .multipleResultsFound (b :: bs)
  | .outOfFuel bs => .outOfFuel (b :: bs)

/-- The `while has_next_page` loop of `get_records` (lines 54-67), with the
remote modelled as a function from the 1-based page number to the page it
returns.  Each iteration requests page `current_page + 1`; with `single` set
it raises `MultipleResultsFoundException` when the reported `TotalItems` is
not 1 (yielding nothing for that page); otherwise it yields the page's
records and continues exactly when `HasNextPage` is true. -/
def get_records_from {α : Type} (feed : Nat → NexudusPage α) (single : Bool) :
    Nat → Nat → FetchOutcome α
  | 0, _ => .outOfFuel []
  | fuel + 1, current_page =>
    let res := feed (current_page + 1)
    if single && !(res.TotalItems == 1) then .multipleResultsFound []
    else if res.HasNextPage then
      FetchOutcome.consBatch res.Records (get_records_from feed single fuel (current_page + 1))
    else .ok [res.Records]

/-- `get_records(url_part, payload, single)` (lines 38-67): drain the
generator starting from `current_page = 0`. -/
def get_records {α : Type} (feed : Nat → NexudusPage α) (single : Bool) (fuel : Nat) :
    FetchOutcome α :=
  get_records_from feed single fuel 0

/-- Failures a per-record reconciliation or the fetch can raise: a missing
record key (`KeyError`, carrying the key name) or any other exception. -/
inductive RecordSyncError where
  | keyError (key : String) : RecordSyncError
  | otherError (msg : String) : RecordSyncError
deriving DecidableEq

/-- The log line written by `sync_table`'s callback when a `KeyError` is
caught (line 372); `str(KeyError(k))` renders the key name. -/
def key_error_log_message (k : String) : String :=
  "Attempted to access an invalid key for a Nexudus record! Error: " ++ k

/-- The inner `callback` of `sync_table` (lines 366-372) over a fallible
per-record action `f` (returning the session state reached together with the
exception raised, if any): a `KeyError` is caught, logged with the failing
key name, and the loop continues with the next record; any other exception
propagates. -/
def sync_table_callback {R : Type} (f : R → Store → Store × Option RecordSyncError) :
    List R → Store → List String → Store × List String × Option RecordSyncError
  | [], s, log => (s, log, none)
  | r :: rs, s, log =>
    match f r s with
    | (s', none) => sync_table_callback f rs s' log
    | (s', some (RecordSyncError.keyError k)) =>
        sync_table_callback f rs s' (log ++ [key_error_log_message k])
    | (s', some (RecordSyncError.otherError msg)) => (s', log, some (RecordSyncError.otherError msg))

/-- `process_batch` (lines 100-114) over already-fetched batches: each batch
is handed to the callback; an exception escaping the callback aborts the
run. -/
def sync_table_batches {R : Type} (f : R → Store → Store × Option RecordSyncError) :
    List (List R) → Store → List String → Store × List String × Option RecordSyncError
  | [], s, log => (s, log, none)
  | b :: bs, s, log =>
    match sync_table_callback f b s log with
    | (s', log', none) => sync_table_batches f bs s' log'
    | (s', log', some e) => (s', log', some e)

/-- A whole fallible `sync_table` run: the generator yields `batches` and
then either ends normally (`fetchErr = none`) or raises (`fetchErr = some e`,
e.g. a transport failure); an exception raised by the fetch after its batches
were processed propagates uncaught to the caller. -/
def sync_table_fallible {R : Type} (f : R → Store → Store × Option RecordSyncError)
    (batches : List (List R)) (fetchErr : Option RecordSyncError) (s : Store) :
    Store × List String × Option RecordSyncError :=
  match sync_table_batches f batches s [] with
  | (s', log', none) => (s', log', fetchErr)
  | out => out

/-- Number of rows carrying key `k` under the key projection `keyOf`. -/
def count_key {α : Type} (keyOf : α → Nat) (k : Nat) (l : List α) : Nat :=
  (l.filter (fun a => keyOf a == k)).length

/-- Number of `Member` rows with a given `nexudus_user_id`. -/
def member_key_count (k : Nat) (l : List Member) : Nat :=
  count_key (fun m => m.nexudus_user_id) k l

/-- Number of `Invoice` rows with a given `nexudus_invoice_id`. -/
def invoice_key_count (k : Nat) (l : List Invoice) : Nat :=
  count_key (fun i => i.nexudus_invoice_id) k l

/-- Replaying the in-place updates of a record list over a single row. -/
def member_refold (rs : List MemberRecord) (m : Member) : Member :=
  rs.foldl (fun m0 r => member_update_step r m0) m

/-- Member sync as a fold over the flattened feed. -/
def sync_members_list (cfg : Bool) (rs : List MemberRecord) (l : List Member) : List Member :=
  rs.foldl (fun l0 r => member_table_step cfg r l0) l

/-- Invoice sync as a fold over the flattened feed, with the (untouched)
`Member` table as the gate's context. -/
def sync_invoices_list (members : List Member) (now : Nat) (rs : List InvoiceRecord)
    (invs : List Invoice) : List Invoice :=
  rs.foldl (fun invs0 r => invoice_table_step members now r invs0) invs

/-! ### Sanity checks of the embedding on concrete inputs -/

example : nstrip " 123 " = some "123" := by decide
example : nstrip "" = none := by decide
example : bank_populated ⟨5, "a", "", "e", " 123 ", " 456 "⟩ = true := by decide
example : bank_populated ⟨5, "a", "", "e", "   ", "456"⟩ = false := by decide
example :
    one_or_none (fun n => n == 2) [1, 2, 3] = .oneRow 2 := by decide
example :
    one_or_none (fun n => n == 2) [1, 2, 3, 2] = .multipleRows := by decide
example :
    one_or_none (fun n => n == 9) [1, 2, 3] = .noRow := by decide

/-! ### Inversion lemmas for `one_or_none` -/

theorem one_or_none_noRow_iff {α : Type} (p : α → Bool) (l : List α) :
    one_or_none p l = .noRow ↔ l.filter p = [] := by
  unfold one_or_none
  cases h : l.filter p with
  | nil => simp
  | cons a t => cases t <;> simp

theorem one_or_none_oneRow_iff {α : Type} (p : α → Bool) (l : List α) (a : α) :
    one_or_none p l = .oneRow a ↔ l.filter p = [a] := by
  unfold one_or_none
  cases h : l.filter p with
  | nil => simp
  | cons b t => cases t <;> simp

theorem one_or_none_multipleRows_iff {α : Type} (p : α → Bool) (l : List α) :
    one_or_none p l = .multipleRows ↔ 2 ≤ (l.filter p).length := by
  unfold one_or_none
  cases h : l.filter p with
  | nil => simp
  | cons b t => cases t <;> simp

/-! ### Counting rows by key -/

theorem count_key_eq {α : Type} (keyOf : α → Nat) (k : Nat) (l : List α) :
    count_key keyOf k l = (l.filter (fun a => keyOf a == k)).length := rfl

theorem count_key_nil {α : Type} (keyOf : α → Nat) (k : Nat) :
    count_key keyOf k ([] : List α) = 0 := rfl

theorem count_key_cons {α : Type} (keyOf : α → Nat) (k : Nat) (a : α) (l : List α) :
    count_key keyOf k (a :: l) =
      (if keyOf a == k then 1 else 0) + count_key keyOf k l := by
  simp only [count_key, List.filter_cons]
  split
  · simp [Nat.add_comm]
  · simp

theorem count_key_append {α : Type} (keyOf : α → Nat) (k : Nat) (l1 l2 : List α) :
    count_key keyOf k (l1 ++ l2) = count_key keyOf k l1 + count_key keyOf k l2 := by
  simp [count_key, List.filter_append]

theorem count_key_map {α : Type} (keyOf : α → Nat) (k : Nat) (f : α → α)
    (hf : ∀ a, keyOf (f a) = keyOf a) (l : List α) :
    count_key keyOf k (l.map f) = count_key keyOf k l := by
  induction l with
  | nil => rfl
  | cons a t ih => simp [count_key_cons, hf, ih]

theorem count_key_filter_self {α : Type} (keyOf : α → Nat) (k : Nat) (l : List α) :
    count_key keyOf k (l.filter (fun a => !(keyOf a == k))) = 0 := by
  induction l with
  | nil => rfl
  | cons a t ih =>
    simp only [List.filter_cons]
    by_cases h : keyOf a = k
    · simp [h, ih]
    · simp [h, count_key_cons, ih]

theorem count_key_filter_other {α : Type} (keyOf : α → Nat) (k j : Nat) (hjk : j ≠ k)
    (l : List α) :
    count_key keyOf k (l.filter (fun a => !(keyOf a == j))) = count_key keyOf k l := by
  induction l with
  | nil => rfl
  | cons a t ih =>
    simp only [List.filter_cons]
    by_cases h : keyOf a = j
    · simp [h, ih, count_key_cons, hjk, Ne.symm hjk]
    · simp [h, count_key_cons, ih]

/-! ### Bank-field predicate -/

theorem py_strip_empty : py_strip "" = "" := rfl

theorem truthy_opt_nstrip (s : String) : truthy_opt (nstrip s) = !(py_strip s == "") := by
  unfold nstrip truthy_opt
  by_cases h : s = ""
  · subst h
    simp [py_strip_empty]
  · simp [h]

theorem bank_populated_eq (r : MemberRecord) :
    bank_populated r = (!(py_strip r.BankBranch == "") && !(py_strip r.BankAccount == "")) := by
  unfold bank_populated
  rw [truthy_opt_nstrip, truthy_opt_nstrip]

/-! ### Member reconciliation: single-step lemmas -/

theorem member_fields_from_key (r : MemberRecord) (a : Bool) :
    (member_fields_from r a).nexudus_user_id = r.Id := rfl

theorem update_member_eq (r : MemberRecord) (m : Member) :
    update_member r m =
      member_fields_from r (if bank_populated r then m.process_automatically else false) := rfl

theorem member_update_step_hit (r : MemberRecord) (m : Member)
    (h : m.nexudus_user_id = r.Id) :
    member_update_step r m = update_member r m := by
  simp [member_update_step, h]

theorem member_update_step_skip (r : MemberRecord) (m : Member)
    (h : ¬m.nexudus_user_id = r.Id) :
    member_update_step r m = m := by
  simp [member_update_step, h]

theorem member_update_step_key (r : MemberRecord) (m : Member) :
    (member_update_step r m).nexudus_user_id = m.nexudus_user_id := by
  by_cases h : m.nexudus_user_id = r.Id
  · rw [member_update_step_hit r m h, update_member_eq, member_fields_from_key, h]
  · rw [member_update_step_skip r m h]

theorem member_update_step_auto_false (r : MemberRecord) (m : Member)
    (h : m.process_automatically = false) :
    (member_update_step r m).process_automatically = false := by
  by_cases hk : m.nexudus_user_id = r.Id
  · rw [member_update_step_hit r m hk, update_member_eq]
    simp [member_fields_from, h]
  · rw [member_update_step_skip r m hk, h]

theorem member_key_count_step (cfg : Bool) (r : MemberRecord) (k : Nat) (l : List Member) :
    member_key_count k (member_table_step cfg r l) =
      if r.Id = k then 1 else member_key_count k l := by
  unfold member_table_step
  cases ho : one_or_none (fun m => m.nexudus_user_id == r.Id) l with
  | noRow =>
    rw [one_or_none_noRow_iff] at ho
    unfold member_key_count
    rw [count_key_append]
    by_cases hk : r.Id = k
    · subst hk
      have h0 : count_key (fun m => m.nexudus_user_id) r.Id l = 0 := by
        rw [count_key_eq, ho]
        rfl
      simp [h0, count_key_cons, count_key_nil, member_fields_from_key, new_member]
    · simp [hk, count_key_cons, count_key_nil, member_fields_from_key, new_member]
  | oneRow a =>
    rw [one_or_none_oneRow_iff] at ho
    unfold member_key_count
    rw [count_key_map (fun m => m.nexudus_user_id) k (member_update_step r)
      (member_update_step_key r) l]
    by_cases hk : r.Id = k
    · subst hk
      rw [count_key_eq, ho]
      simp
    · simp [hk]
  | multipleRows =>
    unfold member_key_count
    rw [count_key_append]
    by_cases hk : r.Id = k
    · subst hk
      simp [count_key_filter_self, count_key_cons, count_key_nil, member_fields_from_key,
        new_member]
    · rw [count_key_filter_other (fun m : Member => m.nexudus_user_id) k r.Id hk]
      simp [hk, count_key_cons, count_key_nil, member_fields_from_key, new_member]

theorem member_table_step_of_count_one (cfg : Bool) (r : MemberRecord) (l : List Member)
    (h : member_key_count r.Id l = 1) :
    member_table_step cfg r l = l.map (member_update_step r) := by
  unfold member_table_step
  cases ho : one_or_none (fun m => m.nexudus_user_id == r.Id) l with
  | oneRow a => rfl
  | noRow =>
    rw [one_or_none_noRow_iff] at ho
    rw [member_key_count, count_key_eq, ho] at h
    exact absurd h (by decide)
  | multipleRows =>
    rw [one_or_none_multipleRows_iff] at ho
    rw [member_key_count, count_key_eq] at h
    omega

/-! ### Member sync: fold lemmas -/

theorem sync_members_list_nil (cfg : Bool) (l : List Member) :
    sync_members_list cfg [] l = l := rfl

theorem sync_members_list_cons (cfg : Bool) (r : MemberRecord) (rs : List MemberRecord)
    (l : List Member) :
    sync_members_list cfg (r :: rs) l = sync_members_list cfg rs (member_table_step cfg r l) :=
  rfl

theorem sync_members_list_append (cfg : Bool) (rs1 rs2 : List MemberRecord) (l : List Member) :
    sync_members_list cfg (rs1 ++ rs2) l =
      sync_members_list cfg rs2 (sync_members_list cfg rs1 l) := by
  unfold sync_members_list
  rw [List.foldl_append]

theorem member_refold_nil (m : Member) : member_refold [] m = m := rfl

theorem member_refold_cons (r : MemberRecord) (rs : List MemberRecord) (m : Member) :
    member_refold (r :: rs) m = member_refold rs (member_update_step r m) := rfl

theorem member_refold_key (rs : List MemberRecord) (m : Member) :
    (member_refold rs m).nexudus_user_id = m.nexudus_user_id := by
  induction rs generalizing m with
  | nil => rfl
  | cons r rs ih => rw [member_refold_cons, ih, member_update_step_key]

theorem member_refold_auto_false (rs : List MemberRecord) (m : Member)
    (h : m.process_automatically = false) :
    (member_refold rs m).process_automatically = false := by
  induction rs generalizing m with
  | nil => exact h
  | cons r rs ih => rw [member_refold_cons]; exact ih _ (member_update_step_auto_false r m h)

theorem member_key_count_sync (cfg : Bool) (rs : List MemberRecord) (k : Nat)
    (l : List Member) :
    member_key_count k (sync_members_list cfg rs l) =
      if rs.any (fun r => r.Id == k) then 1 else member_key_count k l := by
  induction rs generalizing l with
  | nil => simp [sync_members_list_nil]
  | cons r rs ih =>
    rw [sync_members_list_cons, ih, member_key_count_step]
    by_cases h1 : rs.any (fun r => r.Id == k)
    · simp [h1, List.any_cons]
    · by_cases h2 : r.Id = k <;> simp [h1, h2, List.any_cons]

theorem sync_members_list_of_counts_one (cfg : Bool) (rs : List MemberRecord)
    (l : List Member) (h : ∀ r ∈ rs, member_key_count r.Id l = 1) :
    sync_members_list cfg rs l = l.map (member_refold rs) := by
  induction rs generalizing l with
  | nil =>
    rw [sync_members_list_nil]
    symm
    calc l.map (member_refold [])
        = l.map (fun m => m) := List.map_congr_left (fun m _ => rfl)
      _ = l := l.map_id'
  | cons r rs ih =>
    rw [sync_members_list_cons,
      member_table_step_of_count_one cfg r l (h r (List.mem_cons_self r rs))]
    rw [ih (l.map (member_update_step r)) ?counts]
    case counts =>
      intro r' hr'
      rw [member_key_count,
        count_key_map (fun m => m.nexudus_user_id) r'.Id (member_update_step r)
          (member_update_step_key r) l]
      exact h r' (List.mem_cons_of_mem r hr')
    rw [List.map_map]
    rfl

/-! ### Member sync: the synced row is a fixed point of reprocessing -/

theorem member_fields_from_auto (r : MemberRecord) (a : Bool) :
    (member_fields_from r a).process_automatically = a := rfl

theorem update_member_auto (r : MemberRecord) (m : Member) :
    (update_member r m).process_automatically =
      if bank_populated r then m.process_automatically else false := rfl

theorem update_member_update_member (g r : MemberRecord) (x : Member)
    (h : bank_populated r = false → x.process_automatically = false) :
    update_member g (update_member r x) = update_member g x := by
  have hauto : (if bank_populated g then (update_member r x).process_automatically else false) =
      (if bank_populated g then x.process_automatically else false) := by
    rw [update_member_auto]
    by_cases hr : bank_populated r = true
    · rw [hr]
      simp
    · have hrf : bank_populated r = false := by simpa using hr
      rw [hrf, h hrf]
      simp
  rw [update_member_eq g (update_member r x), update_member_eq g x, hauto]

theorem member_refold_update_refold (rs : List MemberRecord) :
    ∀ (r : MemberRecord) (a : Bool), (bank_populated r = false → a = false) →
      member_refold rs (update_member r (member_refold rs (member_fields_from r a))) =
        member_refold rs (member_fields_from r a) := by
  induction rs with
  | nil =>
    intro r a h
    simp only [member_refold_nil]
    rw [update_member_eq, member_fields_from_auto]
    by_cases hr : bank_populated r = true
    · rw [hr]
      simp
    · have hrf : bank_populated r = false := by simpa using hr
      rw [hrf, h hrf]
      simp
  | cons g rs ih =>
    intro r a h
    by_cases hg : g.Id = r.Id
    · have hm0key : (member_fields_from r a).nexudus_user_id = g.Id := by
        rw [member_fields_from_key, hg]
      rw [member_refold_cons g rs (member_fields_from r a),
        member_update_step_hit g _ hm0key,
        update_member_eq g (member_fields_from r a), member_fields_from_auto]
      have ha' : bank_populated g = false → (if bank_populated g then a else false) = false := by
        intro hgf
        rw [hgf]
        simp
      have hkey2 : (update_member r (member_refold rs
          (member_fields_from g (if bank_populated g then a else false)))).nexudus_user_id
          = g.Id := by
        rw [update_member_eq, member_fields_from_key, hg]
      rw [member_refold_cons, member_update_step_hit g _ hkey2]
      have hX : bank_populated r = false →
          (member_refold rs (member_fields_from g
            (if bank_populated g then a else false))).process_automatically = false := by
        intro hrf
        apply member_refold_auto_false
        rw [member_fields_from_auto, h hrf]
        simp
      rw [update_member_update_member g r _ hX]
      exact ih g (if bank_populated g then a else false) ha'
    · have hm0key : ¬(member_fields_from r a).nexudus_user_id = g.Id := by
        rw [member_fields_from_key]
        exact fun hc => hg hc.symm
      simp only [member_refold_cons]
      rw [member_update_step_skip g _ hm0key]
      have hkey3 : ¬(update_member r
          (member_refold rs (member_fields_from r a))).nexudus_user_id = g.Id := by
        rw [update_member_eq, member_fields_from_key]
        exact fun hc => hg hc.symm
      rw [member_update_step_skip g _ hkey3]
      exact ih r a h

theorem member_row_tracked (cfg : Bool) (rs : List MemberRecord) (k : Nat) :
    ∀ (l : List Member) (m0 m : Member), member_key_count k l = 1 → m0 ∈ l →
      m0.nexudus_user_id = k → m ∈ sync_members_list cfg rs l →
      m.nexudus_user_id = k → m = member_refold rs m0 := by
  induction rs with
  | nil =>
    intro l m0 m hc hm0 hk0 hm hk
    rw [sync_members_list_nil] at hm
    rw [member_refold_nil]
    have hm0f : m0 ∈ l.filter (fun x => x.nexudus_user_id == k) :=
      List.mem_filter.2 ⟨hm0, by simp [hk0]⟩
    have hmf : m ∈ l.filter (fun x => x.nexudus_user_id == k) :=
      List.mem_filter.2 ⟨hm, by simp [hk]⟩
    rw [member_key_count, count_key_eq] at hc
    obtain ⟨x, hx⟩ := List.length_eq_one.1 hc
    rw [hx, List.mem_singleton] at hm0f hmf
    rw [hmf, hm0f]
  | cons r rs ih =>
    intro l m0 m hc hm0 hk0 hm hk
    rw [sync_members_list_cons] at hm
    by_cases hr : r.Id = k
    · have hc' : member_key_count r.Id l = 1 := by rw [hr]; exact hc
      rw [member_table_step_of_count_one cfg r l hc'] at hm
      have hm0' : member_update_step r m0 ∈ l.map (member_update_step r) :=
        List.mem_map_of_mem _ hm0
      have hk0' : (member_update_step r m0).nexudus_user_id = k := by
        rw [member_update_step_key]
        exact hk0
      have hcmap : member_key_count k (l.map (member_update_step r)) = 1 := by
        rw [member_key_count, count_key_map _ _ _ (member_update_step_key r)]
        exact hc
      have hres := ih (l.map (member_update_step r)) (member_update_step r m0) m
        hcmap hm0' hk0' hm hk
      rw [member_refold_cons]
      exact hres
    · have hne : ¬m0.nexudus_user_id = r.Id := by
        rw [hk0]
        exact fun hc2 => hr hc2.symm
      have hc1 : member_key_count k (member_table_step cfg r l) = 1 := by
        rw [member_key_count_step]
        simp [hr, hc]
      have hm0' : m0 ∈ member_table_step cfg r l := by
        unfold member_table_step
        cases ho : one_or_none (fun x => x.nexudus_user_id == r.Id) l with
        | noRow => exact List.mem_append_left _ hm0
        | multipleRows =>
          exact List.mem_append_left _ (List.mem_filter.2 ⟨hm0, by simp [hne]⟩)
        | oneRow b =>
          rw [← member_update_step_skip r m0 hne]
          exact List.mem_map_of_mem _ hm0
      have hres := ih (member_table_step cfg r l) m0 m hc1 hm0' hk0 hm hk
      rw [member_refold_cons, member_update_step_skip r m0 hne]
      exact hres

theorem member_refold_fixed (cfg : Bool) (rs : List MemberRecord) :
    ∀ (l : List Member) (m : Member), m ∈ sync_members_list cfg rs l →
      member_refold rs m = m := by
  induction rs with
  | nil =>
    intro l m _
    rfl
  | cons r rs ih =>
    intro l m hm
    rw [sync_members_list_cons] at hm
    by_cases hk : m.nexudus_user_id = r.Id
    · have hstep : ∃ a : Bool, (bank_populated r = false → a = false) ∧
          member_fields_from r a ∈ member_table_step cfg r l := by
        unfold member_table_step
        cases ho : one_or_none (fun x => x.nexudus_user_id == r.Id) l with
        | noRow =>
          refine ⟨if bank_populated r then cfg else false, ?_, ?_⟩
          · intro hf
            rw [hf]
            simp
          · exact List.mem_append_right _ (by simp [new_member])
        | multipleRows =>
          refine ⟨if bank_populated r then cfg else false, ?_, ?_⟩
          · intro hf
            rw [hf]
            simp
          · exact List.mem_append_right _ (by simp [new_member])
        | oneRow b =>
          rw [one_or_none_oneRow_iff] at ho
          have hbmem : b ∈ l.filter (fun x => x.nexudus_user_id == r.Id) := by
            rw [ho]
            simp
          have hb := List.mem_filter.1 hbmem
          refine ⟨if bank_populated r then b.process_automatically else false, ?_, ?_⟩
          · intro hf
            rw [hf]
            simp
          · have hb2 : member_update_step r b =
                member_fields_from r (if bank_populated r then b.process_automatically
                  else false) := by
              rw [member_update_step_hit r b (by simpa using hb.2), update_member_eq]
            rw [← hb2]
            exact List.mem_map_of_mem _ hb.1
      obtain ⟨a, ha, hmem⟩ := hstep
      have hcount : member_key_count r.Id (member_table_step cfg r l) = 1 := by
        rw [member_key_count_step]
        simp
      have htrack := member_row_tracked cfg rs r.Id (member_table_step cfg r l)
        (member_fields_from r a) m hcount hmem (member_fields_from_key r a) hm hk
      rw [member_refold_cons, member_update_step_hit r m hk, htrack]
      exact member_refold_update_refold rs r a ha
    · rw [member_refold_cons, member_update_step_skip r m hk]
      exact ih _ m hm

theorem sync_members_list_idem (cfg : Bool) (rs : List MemberRecord) (l : List Member) :
    sync_members_list cfg rs (sync_members_list cfg rs l) = sync_members_list cfg rs l := by
  rw [sync_members_list_of_counts_one cfg rs (sync_members_list cfg rs l) ?counts]
  case counts =>
    intro r hr
    rw [member_key_count_sync]
    have hany : rs.any (fun x => x.Id == r.Id) = true := List.any_eq_true.2 ⟨r, hr, by simp⟩
    rw [hany]
    simp
  calc (sync_members_list cfg rs l).map (member_refold rs)
      = (sync_members_list cfg rs l).map (fun m => m) :=
        List.map_congr_left (fun m hm => member_refold_fixed cfg rs l m hm)
    _ = sync_members_list cfg rs l := (sync_members_list cfg rs l).map_id'

/-! ### Invoice reconciliation lemmas -/

theorem new_invoice_key (now : Nat) (r : InvoiceRecord) :
    (new_invoice now r).nexudus_invoice_id = r.Id := rfl

theorem invoice_table_step_gate (M : List Member) (now : Nat) (r : InvoiceRecord)
    (invs : List Invoice) (h : gate_skips M r = true) :
    invoice_table_step M now r invs = invs := by
  simp [invoice_table_step, h]

theorem invoice_key_count_step (M : List Member) (now : Nat) (r : InvoiceRecord) (k : Nat)
    (invs : List Invoice) :
    invoice_key_count k (invoice_table_step M now r invs) =
      if gate_skips M r then invoice_key_count k invs
      else if r.Id = k then 1 else invoice_key_count k invs := by
  by_cases hg : gate_skips M r = true
  · rw [invoice_table_step_gate M now r invs hg, hg]
    simp
  · have hgf : gate_skips M r = false := by simpa using hg
    rw [hgf]
    simp only [Bool.false_eq_true, if_false]
    unfold invoice_table_step
    rw [hgf]
    simp only [Bool.false_eq_true, if_false]
    cases ho : one_or_none (fun i => i.nexudus_invoice_id == r.Id) invs with
    | noRow =>
      rw [one_or_none_noRow_iff] at ho
      unfold invoice_key_count
      rw [count_key_append]
      by_cases hk : r.Id = k
      · subst hk
        have h0 : count_key (fun i => i.nexudus_invoice_id) r.Id invs = 0 := by
          rw [count_key_eq, ho]
          rfl
        simp [h0, count_key_cons, count_key_nil, new_invoice_key]
      · simp [hk, count_key_cons, count_key_nil, new_invoice_key]
    | oneRow a =>
      rw [one_or_none_oneRow_iff] at ho
      by_cases hk : r.Id = k
      · subst hk
        unfold invoice_key_count
        rw [count_key_eq, ho]
        simp
      · simp [hk]
    | multipleRows =>
      unfold invoice_key_count
      rw [count_key_append]
      by_cases hk : r.Id = k
      · subst hk
        simp [count_key_filter_self, count_key_cons, count_key_nil, new_invoice_key]
      · rw [count_key_filter_other (fun i : Invoice => i.nexudus_invoice_id) k r.Id hk]
        simp [hk, count_key_cons, count_key_nil, new_invoice_key]

theorem invoice_table_step_of_count_one (M : List Member) (now : Nat) (r : InvoiceRecord)
    (invs : List Invoice) (h : invoice_key_count r.Id invs = 1) :
    invoice_table_step M now r invs = invs := by
  unfold invoice_table_step
  by_cases hg : gate_skips M r = true
  · simp [hg]
  · have hgf : gate_skips M r = false := by simpa using hg
    rw [hgf]
    simp only [Bool.false_eq_true, if_false]
    cases ho : one_or_none (fun i => i.nexudus_invoice_id == r.Id) invs with
    | oneRow a => rfl
    | noRow =>
      rw [one_or_none_noRow_iff] at ho
      rw [invoice_key_count, count_key_eq, ho] at h
      exact absurd h (by decide)
    | multipleRows =>
      rw [one_or_none_multipleRows_iff] at ho
      rw [invoice_key_count, count_key_eq] at h
      omega

theorem sync_invoices_list_nil (M : List Member) (now : Nat) (invs : List Invoice) :
    sync_invoices_list M now [] invs = invs := rfl

theorem sync_invoices_list_cons (M : List Member) (now : Nat) (r : InvoiceRecord)
    (rs : List InvoiceRecord) (invs : List Invoice) :
    sync_invoices_list M now (r :: rs) invs =
      sync_invoices_list M now rs (invoice_table_step M now r invs) := rfl

theorem sync_invoices_list_append (M : List Member) (now : Nat)
    (rs1 rs2 : List InvoiceRecord) (invs : List Invoice) :
    sync_invoices_list M now (rs1 ++ rs2) invs =
      sync_invoices_list M now rs2 (sync_invoices_list M now rs1 invs) := by
  unfold sync_invoices_list
  rw [List.foldl_append]

theorem invoice_key_count_sync (M : List Member) (now : Nat) (rs : List InvoiceRecord)
    (k : Nat) (invs : List Invoice) :
    invoice_key_count k (sync_invoices_list M now rs invs) =
      if rs.any (fun r => !gate_skips M r && r.Id == k) then 1
      else invoice_key_count k invs := by
  induction rs generalizing invs with
  | nil => simp [sync_invoices_list_nil]
  | cons r rs ih =>
    rw [sync_invoices_list_cons, ih, invoice_key_count_step]
    by_cases h1 : rs.any (fun r => !gate_skips M r && r.Id == k) = true
    · simp [h1, List.any_cons]
    · have h1f : rs.any (fun r => !gate_skips M r && r.Id == k) = false := by simpa using h1
      by_cases hg : gate_skips M r = true
      · simp [h1f, hg, List.any_cons]
      · have hgf : gate_skips M r = false := by simpa using hg
        by_cases h2 : r.Id = k <;> simp [h1f, hgf, h2, List.any_cons]

theorem sync_invoices_list_fixed (M : List Member) (now : Nat) (rs : List InvoiceRecord)
    (invs : List Invoice) (h : ∀ r ∈ rs, invoice_table_step M now r invs = invs) :
    sync_invoices_list M now rs invs = invs := by
  induction rs with
  | nil => rfl
  | cons r rs ih =>
    rw [sync_invoices_list_cons, h r (List.mem_cons_self r rs)]
    exact ih (fun r' hr' => h r' (List.mem_cons_of_mem r hr'))

theorem sync_invoices_list_idem (M : List Member) (now1 now2 : Nat)
    (rs : List InvoiceRecord) (invs : List Invoice) :
    sync_invoices_list M now2 rs (sync_invoices_list M now1 rs invs) =
      sync_invoices_list M now1 rs invs := by
  apply sync_invoices_list_fixed
  intro r hr
  by_cases hg : gate_skips M r = true
  · exact invoice_table_step_gate _ _ _ _ hg
  · have hgf : gate_skips M r = false := by simpa using hg
    apply invoice_table_step_of_count_one
    rw [invoice_key_count_sync]
    have hany : rs.any (fun x => !gate_skips M x && x.Id == r.Id) = true :=
      List.any_eq_true.2 ⟨r, hr, by simp [hgf]⟩
    rw [hany]
    simp

/-! ### Store-level shape of the sync runs -/

theorem add_or_overwrite_member_def (cfg : Bool) (r : MemberRecord) (s : Store) :
    add_or_overwrite_member cfg r s = { s with members := member_table_step cfg r s.members } :=
  rfl

theorem add_or_overwrite_invoice_def (now : Nat) (r : InvoiceRecord) (s : Store) :
    add_or_overwrite_invoice now r s =
      { s with invoices := invoice_table_step s.members now r s.invoices } := rfl

theorem sync_member_table_cons (cfg : Bool) (b : List MemberRecord)
    (bs : List (List MemberRecord)) (s : Store) :
    sync_member_table cfg (b :: bs) s =
      sync_member_table cfg bs (b.foldl (fun st r => add_or_overwrite_member cfg r st) s) :=
  rfl

theorem sync_invoice_table_cons (now : Nat) (b : List InvoiceRecord)
    (bs : List (List InvoiceRecord)) (s : Store) :
    sync_invoice_table now (b :: bs) s =
      sync_invoice_table now bs (b.foldl (fun st r => add_or_overwrite_invoice now r st) s) :=
  rfl

theorem foldl_member_batch (cfg : Bool) (b : List MemberRecord) :
    ∀ s : Store, b.foldl (fun st r => add_or_overwrite_member cfg r st) s =
      { s with members := sync_members_list cfg b s.members } := by
  induction b with
  | nil =>
    intro s
    rfl
  | cons r rs ih =>
    intro s
    rw [List.foldl_cons, add_or_overwrite_member_def, ih]
    rfl

theorem foldl_invoice_batch (now : Nat) (b : List InvoiceRecord) :
    ∀ s : Store, b.foldl (fun st r => add_or_overwrite_invoice now r st) s =
      { s with invoices := sync_invoices_list s.members now b s.invoices } := by
  induction b with
  | nil =>
    intro s
    rfl
  | cons r rs ih =>
    intro s
    rw [List.foldl_cons, add_or_overwrite_invoice_def, ih]
    rfl

theorem sync_member_table_eq (cfg : Bool) (batches : List (List MemberRecord)) :
    ∀ s : Store, sync_member_table cfg batches s =
      { s with members := sync_members_list cfg batches.flatten s.members } := by
  induction batches with
  | nil =>
    intro s
    rfl
  | cons b bs ih =>
    intro s
    have hj : sync_members_list cfg ((b :: bs).flatten) s.members =
        sync_members_list cfg bs.flatten (sync_members_list cfg b s.members) := by
      show sync_members_list cfg (b ++ bs.flatten) s.members = _
      rw [sync_members_list_append]
    calc sync_member_table cfg (b :: bs) s
        = sync_member_table cfg bs { s with members := sync_members_list cfg b s.members } := by
          rw [sync_member_table_cons, foldl_member_batch cfg b s]
      _ = { s with members := sync_members_list cfg bs.flatten (sync_members_list cfg b s.members) } :=
          by rw [ih]
      _ = { s with members := sync_members_list cfg ((b :: bs).flatten) s.members } := by rw [hj]

theorem sync_invoice_table_eq (now : Nat) (batches : List (List InvoiceRecord)) :
    ∀ s : Store, sync_invoice_table now batches s =
      { s with invoices := sync_invoices_list s.members now batches.flatten s.invoices } := by
  induction batches with
  | nil =>
    intro s
    rfl
  | cons b bs ih =>
    intro s
    have hj : sync_invoices_list s.members now ((b :: bs).flatten) s.invoices =
        sync_invoices_list s.members now bs.flatten (sync_invoices_list s.members now b s.invoices) := by
      show sync_invoices_list s.members now (b ++ bs.flatten) s.invoices = _
      rw [sync_invoices_list_append]
    calc sync_invoice_table now (b :: bs) s
        = sync_invoice_table now bs
            { s with invoices := sync_invoices_list s.members now b s.invoices } := by
          rw [sync_invoice_table_cons, foldl_invoice_batch now b s]
      _ = { s with invoices :=
            sync_invoices_list s.members now bs.flatten (sync_invoices_list s.members now b s.invoices) } :=
          by rw [ih]
      _ = { s with invoices := sync_invoices_list s.members now ((b :: bs).flatten) s.invoices } := by
          rw [hj]

/-! ### Pagination lemmas -/

theorem get_records_from_ok {α : Type} (feed : Nat → NexudusPage α) :
    ∀ (n fuel cp : Nat), 1 ≤ n → n ≤ fuel →
      (∀ i, cp + 1 ≤ i → i < cp + n → (feed i).HasNextPage = true) →
      (feed (cp + n)).HasNextPage = false →
      get_records_from feed false fuel cp =
        FetchOutcome.ok ((List.range n).map (fun i => (feed (cp + 1 + i)).Records)) := by
  intro n
  induction n with
  | zero =>
    intro fuel cp h1
    omega
  | succ m ih =>
    intro fuel cp h1 hfuel hnext hlast
    cases fuel with
    | zero => omega
    | succ f =>
      by_cases hm : m = 0
      · subst hm
        have hl1 : (feed (cp + 1)).HasNextPage = false := hlast
        unfold get_records_from
        simp [hl1]
        rfl
      · have hm1 : 1 ≤ m := Nat.one_le_iff_ne_zero.2 hm
        have hnext1 : (feed (cp + 1)).HasNextPage = true := hnext (cp + 1) (by omega) (by omega)
        have hmf : m ≤ f := Nat.succ_le_succ_iff.mp hfuel
        have hrec := ih f (cp + 1) hm1 hmf
          (fun i hi1 hi2 => hnext i (by omega) (by omega))
          (by
            have harr : cp + 1 + m = cp + (m + 1) := by omega
            rw [harr]
            exact hlast)
        unfold get_records_from
        simp only [Bool.false_and, Bool.false_eq_true, if_false, hnext1, if_true]
        rw [hrec]
        show FetchOutcome.ok ((feed (cp + 1)).Records ::
            (List.range m).map (fun i => (feed (cp + 1 + 1 + i)).Records)) = _
        have htail : (List.range m).map (fun i => (feed (cp + 1 + 1 + i)).Records) =
            (List.range m).map ((fun i => (feed (cp + 1 + i)).Records) ∘ Nat.succ) := by
          apply List.map_congr_left
          intro i _
          show (feed (cp + 1 + 1 + i)).Records = (feed (cp + 1 + (i + 1))).Records
          have harith2 : cp + 1 + 1 + i = cp + 1 + (i + 1) := by omega
          rw [harith2]
        rw [List.range_succ_eq_map, List.map_cons, List.map_map, ← htail]

theorem get_records_first_page_bad_total {α : Type} (feed : Nat → NexudusPage α)
    (fuel : Nat) (hf : 1 ≤ fuel) (ht : ¬(feed 1).TotalItems = 1) :
    get_records feed true fuel = FetchOutcome.multipleResultsFound [] := by
  cases fuel with
  | zero => omega
  | succ f =>
    unfold get_records get_records_from
    simp [ht]

/-! ### Per-record error isolation in `sync_table` -/

theorem sync_table_callback_key_error {R : Type}
    (f : R → Store → Store × Option RecordSyncError) (r : R) (rs : List R)
    (s s' : Store) (log : List String) (k : String)
    (h : f r s = (s', some (RecordSyncError.keyError k))) :
    sync_table_callback f (r :: rs) s log =
      sync_table_callback f rs s' (log ++ [key_error_log_message k]) := by
  show (match f r s with
    | (s', none) => sync_table_callback f rs s' log
    | (s', some (RecordSyncError.keyError k)) =>
        sync_table_callback f rs s' (log ++ [key_error_log_message k])
    | (s', some (RecordSyncError.otherError msg)) =>
        (s', log, some (RecordSyncError.otherError msg))) = _
  rw [h]

theorem sync_table_callback_other_error {R : Type}
    (f : R → Store → Store × Option RecordSyncError) (r : R) (rs : List R)
    (s s' : Store) (log : List String) (msg : String)
    (h : f r s = (s', some (RecordSyncError.otherError msg))) :
    sync_table_callback f (r :: rs) s log = (s', log, some (RecordSyncError.otherError msg)) := by
  show (match f r s with
    | (s', none) => sync_table_callback f rs s' log
    | (s', some (RecordSyncError.keyError k)) =>
        sync_table_callback f rs s' (log ++ [key_error_log_message k])
    | (s', some (RecordSyncError.otherError msg)) =>
        (s', log, some (RecordSyncError.otherError msg))) = _
  rw [h]

theorem sync_table_fallible_fetch_error {R : Type}
    (f : R → Store → Store × Option RecordSyncError) (batches : List (List R))
    (s s' : Store) (log' : List String) (e : RecordSyncError)
    (h : sync_table_batches f batches s [] = (s', log', none)) :
    sync_table_fallible f batches (some e) s = (s', log', some e) := by
  unfold sync_table_fallible
  rw [h]

/-! ### Claim theorems -/

/-- Claim C1, counterexample: the claim asserts that after any sync run at
most one local row exists per unique key even when the key does not appear in
the remote feed.  But a run whose feed contains only member id 1 never
touches the two duplicate local rows stored for member id 7, so two rows for
key 7 remain after the run completes. -/
theorem c1_counterexample :
    ¬ member_key_count 7
        (sync_member_table true [[⟨1, "n", "", "e", "", ""⟩]]
          ⟨[⟨7, "a", "a", "a", "", "", false⟩, ⟨7, "b", "b", "b", "", "", false⟩],
            []⟩).members ≤ 1 := by
  decide

/-- Claim C1 (amended): after a sync run, at most one local row exists for
every unique key that the run actually reconciled: every `remote_user_id`
appearing in the Member feed, and every `remote_invoice_id` appearing in an
Invoice feed record that is not short-circuited by the `auto_process` gate.
(Keys absent from the feed, and invoice records skipped by the gate, are left
as they were, duplicates included.) -/
theorem c1_uniqueness_for_reconciled_keys :
    (∀ (cfg : Bool) (batches : List (List MemberRecord)) (s : Store) (k : Nat)
        (r : MemberRecord), r ∈ batches.flatten → r.Id = k →
      member_key_count k (sync_member_table cfg batches s).members ≤ 1) ∧
    (∀ (now : Nat) (batches : List (List InvoiceRecord)) (s : Store) (k : Nat)
        (r : InvoiceRecord), r ∈ batches.flatten → r.Id = k →
        gate_skips s.members r = false →
      invoice_key_count k (sync_invoice_table now batches s).invoices ≤ 1) := by
  constructor
  · intro cfg batches s k r hr hk
    rw [sync_member_table_eq]
    show member_key_count k (sync_members_list cfg batches.flatten s.members) ≤ 1
    rw [member_key_count_sync]
    have hany : batches.flatten.any (fun x => x.Id == k) = true :=
      List.any_eq_true.2 ⟨r, hr, by simp [hk]⟩
    rw [hany]
    simp
  · intro now batches s k r hr hk hg
    rw [sync_invoice_table_eq]
    show invoice_key_count k
      (sync_invoices_list s.members now batches.flatten s.invoices) ≤ 1
    rw [invoice_key_count_sync]
    have hany : batches.flatten.any (fun x => !gate_skips s.members x && x.Id == k) = true :=
      List.any_eq_true.2 ⟨r, hr, by simp [hg, hk]⟩
    rw [hany]
    simp

/-- Claim C1, witness: a Member feed containing id 7 heals the two duplicate
rows for key 7, and a non-gated Invoice feed record with id 9 heals the two
duplicate invoice rows for key 9. -/
theorem c1_witness :
    member_key_count 7
      (sync_member_table true [[⟨7, "n", "", "e", "1", "2"⟩]]
        ⟨[⟨7, "a", "a", "a", "", "", false⟩, ⟨7, "b", "b", "b", "", "", false⟩],
          []⟩).members ≤ 1 ∧
    invoice_key_count 9
      (sync_invoice_table 0 [[⟨9, 5, 1, 42⟩]]
        ⟨[⟨5, "a", "a", "a", "r", "n", true⟩],
          [⟨9, 5, 1, 0, 10, false, none, "Not processed", none⟩,
            ⟨9, 5, 1, 0, 11, false, none, "Not processed", none⟩]⟩).invoices ≤ 1 :=
  ⟨c1_uniqueness_for_reconciled_keys.1 true [[⟨7, "n", "", "e", "1", "2"⟩]]
      ⟨[⟨7, "a", "a", "a", "", "", false⟩, ⟨7, "b", "b", "b", "", "", false⟩], []⟩ 7
      ⟨7, "n", "", "e", "1", "2"⟩ (by decide) rfl,
    c1_uniqueness_for_reconciled_keys.2 0 [[⟨9, 5, 1, 42⟩]]
      ⟨[⟨5, "a", "a", "a", "r", "n", true⟩],
        [⟨9, 5, 1, 0, 10, false, none, "Not processed", none⟩,
          ⟨9, 5, 1, 0, 11, false, none, "Not processed", none⟩]⟩ 9
      ⟨9, 5, 1, 42⟩ (by decide) rfl (by decide)⟩

/-- Claim C2: running the Member sync or the Invoice sync twice against an
unchanged remote feed leaves the local store after the second run equal to
the store after the first run — no duplicate rows are created and no
attribute of any row changes on the second run (the Invoice run may observe a
different wall-clock time, which is irrelevant because it creates no row). -/
theorem c2_sync_idempotent :
    (∀ (cfg : Bool) (batches : List (List MemberRecord)) (s : Store),
      sync_member_table cfg batches (sync_member_table cfg batches s) =
        sync_member_table cfg batches s) ∧
    (∀ (now1 now2 : Nat) (batches : List (List InvoiceRecord)) (s : Store),
      sync_invoice_table now2 batches (sync_invoice_table now1 batches s) =
        sync_invoice_table now1 batches s) := by
  constructor
  · intro cfg batches s
    rw [sync_member_table_eq cfg batches s,
      sync_member_table_eq cfg batches
        { s with members := sync_members_list cfg batches.flatten s.members }]
    show ({ s with members := (sync_members_list cfg batches.flatten
        (sync_members_list cfg batches.flatten s.members)) } : Store) = _
    rw [sync_members_list_idem]
  · intro now1 now2 batches s
    rw [sync_invoice_table_eq now1 batches s,
      sync_invoice_table_eq now2 batches
        { s with invoices := sync_invoices_list s.members now1 batches.flatten s.invoices }]
    show ({ s with invoices := (sync_invoices_list s.members now2 batches.flatten
        (sync_invoices_list s.members now1 batches.flatten s.invoices)) } : Store) = _
    rw [sync_invoices_list_idem]

/-- Claim C3: reconciling a remote record onto a Member stored exactly once
with `auto_process = true` leaves `auto_process = true` when both bank fields
are non-blank after trimming, and forces it to `false` when they are blank
after trimming — in both cases the resulting value is exactly the
bank-populated predicate. -/
theorem c3_merge_policy_auto_process :
    ∀ (cfg : Bool) (r : MemberRecord) (s : Store) (m0 : Member),
      s.members.filter (fun m => m.nexudus_user_id == r.Id) = [m0] →
      m0.process_automatically = true →
      ((∀ m' ∈ (add_or_overwrite_member cfg r s).members, m'.nexudus_user_id = r.Id →
          m'.process_automatically =
            (!(py_strip r.BankBranch == "") && !(py_strip r.BankAccount == ""))) ∧
        ∃ m' ∈ (add_or_overwrite_member cfg r s).members, m'.nexudus_user_id = r.Id) := by
  intro cfg r s m0 hfil hap
  have hone : one_or_none (fun m => m.nexudus_user_id == r.Id) s.members =
      LookupResult.oneRow m0 := (one_or_none_oneRow_iff _ _ _).2 hfil
  have hstep : (add_or_overwrite_member cfg r s).members =
      s.members.map (member_update_step r) := by
    show member_table_step cfg r s.members = _
    unfold member_table_step
    rw [hone]
  have hm0mem : m0 ∈ s.members ∧ (m0.nexudus_user_id == r.Id) = true := by
    have hmf : m0 ∈ s.members.filter (fun m => m.nexudus_user_id == r.Id) := by
      rw [hfil]
      exact List.mem_singleton_self m0
    exact List.mem_filter.1 hmf
  constructor
  · intro m' hm' hk'
    rw [hstep] at hm'
    obtain ⟨x, hx, hfx⟩ := List.mem_map.1 hm'
    have hkeys := member_update_step_key r x
    rw [hfx] at hkeys
    have hxk : x.nexudus_user_id = r.Id := by
      rw [← hkeys]
      exact hk'
    have hxm0 : x = m0 := by
      have hxf : x ∈ s.members.filter (fun m => m.nexudus_user_id == r.Id) :=
        List.mem_filter.2 ⟨hx, by simp [hxk]⟩
      rw [hfil, List.mem_singleton] at hxf
      exact hxf
    rw [← hfx, member_update_step_hit r x hxk, update_member_auto, hxm0, hap,
      ← bank_populated_eq]
    cases hbp : bank_populated r <;> simp
  · refine ⟨member_update_step r m0, ?_, ?_⟩
    · rw [hstep]
      exact List.mem_map_of_mem _ hm0mem.1
    · rw [member_update_step_key]
      simpa using hm0mem.2

/-- Claim C3, witness: a member stored once with `auto_process = true` keeps
it `true` on a resync with populated bank fields (the predicate evaluates to
`true` at these inputs). -/
theorem c3_witness :
    (∀ m' ∈ (add_or_overwrite_member true ⟨7, "N", "", "E", " 1 ", " 2 "⟩
        ⟨[⟨7, "a", "b", "c", "x", "y", true⟩], []⟩).members,
      m'.nexudus_user_id = (7 : Nat) →
      m'.process_automatically =
        (!(py_strip " 1 " == "") && !(py_strip " 2 " == ""))) ∧
    ∃ m' ∈ (add_or_overwrite_member true ⟨7, "N", "", "E", " 1 ", " 2 "⟩
        ⟨[⟨7, "a", "b", "c", "x", "y", true⟩], []⟩).members,
      m'.nexudus_user_id = (7 : Nat) :=
  c3_merge_policy_auto_process true ⟨7, "N", "", "E", " 1 ", " 2 "⟩
    ⟨[⟨7, "a", "b", "c", "x", "y", true⟩], []⟩ ⟨7, "a", "b", "c", "x", "y", true⟩
    (by decide) rfl

/-- Claim C4: a remote Member record with no matching local row creates
exactly one new row, appended to the table, whose `auto_process` is the
configured default exactly when both bank fields are non-blank after
trimming, and `false` otherwise. -/
theorem c4_creation_default :
    ∀ (cfg : Bool) (r : MemberRecord) (s : Store),
      s.members.filter (fun m => m.nexudus_user_id == r.Id) = [] →
      (add_or_overwrite_member cfg r s).members = s.members ++ [new_member cfg r] ∧
      (new_member cfg r).process_automatically =
        (if !(py_strip r.BankBranch == "") && !(py_strip r.BankAccount == "") then cfg
          else false) := by
  intro cfg r s hfil
  constructor
  · show member_table_step cfg r s.members = _
    unfold member_table_step
    rw [(one_or_none_noRow_iff _ _).2 hfil]
  · show (if bank_populated r then cfg else false) = _
    rw [bank_populated_eq]

/-- Claim C4, witness: with a populated-bank record the fresh row gets the
configured default, and the row is appended to the empty table. -/
theorem c4_witness :
    (add_or_overwrite_member true ⟨3, "F", "B", "E", "12", "34"⟩ ⟨[], []⟩).members =
      [] ++ [new_member true ⟨3, "F", "B", "E", "12", "34"⟩] ∧
    (new_member true ⟨3, "F", "B", "E", "12", "34"⟩).process_automatically =
      (if !(py_strip "12" == "") && !(py_strip "34" == "") then true else false) :=
  c4_creation_default true ⟨3, "F", "B", "E", "12", "34"⟩ ⟨[], []⟩ (by decide)

/-- Claim C5: an unpaid remote invoice whose owner id matches exactly one
local Member with `auto_process = false` is skipped: the reconciler returns
with the store unchanged (no Invoice row created or modified). -/
theorem c5_invoice_gate_no_effect :
    ∀ (now : Nat) (r : InvoiceRecord) (s : Store) (m0 : Member),
      s.members.filter (fun m => m.nexudus_user_id == r.CoworkerId) = [m0] →
      m0.process_automatically = false →
      add_or_overwrite_invoice now r s = s := by
  intro now r s m0 hfil hap
  have hone : one_or_none (fun m => m.nexudus_user_id == r.CoworkerId) s.members =
      LookupResult.oneRow m0 := (one_or_none_oneRow_iff _ _ _).2 hfil
  have hgate : gate_skips s.members r = true := by
    unfold gate_skips
    rw [hone]
    show (!m0.process_automatically) = true
    rw [hap]
    rfl
  rw [add_or_overwrite_invoice_def, invoice_table_step_gate _ _ _ _ hgate]

/-- Claim C5, witness: an invoice for owner 5, whose unique local member row
has `auto_process = false`, leaves the store (with an existing unrelated
invoice) untouched. -/
theorem c5_witness :
    add_or_overwrite_invoice 3 ⟨9, 5, 1, 42⟩
        ⟨[⟨5, "a", "b", "c", "x", "y", false⟩],
          [⟨8, 6, 1, 0, 10, false, none, "Not processed", none⟩]⟩ =
      ⟨[⟨5, "a", "b", "c", "x", "y", false⟩],
        [⟨8, 6, 1, 0, 10, false, none, "Not processed", none⟩]⟩ :=
  c5_invoice_gate_no_effect 3 ⟨9, 5, 1, 42⟩
    ⟨[⟨5, "a", "b", "c", "x", "y", false⟩],
      [⟨8, 6, 1, 0, 10, false, none, "Not processed", none⟩]⟩
    ⟨5, "a", "b", "c", "x", "y", false⟩ (by decide) rfl

/-- Claim C6: when a remote invoice's id matches exactly one existing local
Invoice, the reconciler is a no-op on the whole store — every field of the
stored Invoice is kept, even when the remote amount differs from the stored
amount. -/
theorem c6_existing_invoice_untouched :
    ∀ (now : Nat) (r : InvoiceRecord) (s : Store) (inv0 : Invoice),
      s.invoices.filter (fun i => i.nexudus_invoice_id == r.Id) = [inv0] →
      add_or_overwrite_invoice now r s = s := by
  intro now r s inv0 hfil
  have hc : invoice_key_count r.Id s.invoices = 1 := by
    rw [invoice_key_count, count_key_eq, hfil]
    rfl
  rw [add_or_overwrite_invoice_def, invoice_table_step_of_count_one _ _ _ _ hc]

/-- Claim C6, witness: the stored invoice for id 9 has amount 10; the remote
record carries amount 42; the store is unchanged by the resync. -/
theorem c6_witness :
    add_or_overwrite_invoice 7 ⟨9, 5, 1, 42⟩
        ⟨[⟨5, "a", "b", "c", "x", "y", true⟩],
          [⟨9, 5, 1, 0, 10, false, none, "Not processed", none⟩]⟩ =
      ⟨[⟨5, "a", "b", "c", "x", "y", true⟩],
        [⟨9, 5, 1, 0, 10, false, none, "Not processed", none⟩]⟩ :=
  c6_existing_invoice_untouched 7 ⟨9, 5, 1, 42⟩
    ⟨[⟨5, "a", "b", "c", "x", "y", true⟩],
      [⟨9, 5, 1, 0, 10, false, none, "Not processed", none⟩]⟩
    ⟨9, 5, 1, 0, 10, false, none, "Not processed", none⟩ (by decide)

/-- Claim C10, counterexample: the claim says the freshly created Member for
the record with `BankBranch = " 123 "` stores bank routing `"123"`; but the
code assigns the raw record values, so the stored routing number is `" 123 "`
(trimming is used only for the populated check, never for storage). -/
theorem c10_counterexample :
    ((add_or_overwrite_member true ⟨5, "Jane Doe", "", "a@b.com", " 123 ", " 456 "⟩
        ⟨[], []⟩).members.map (fun m => m.routing_number)) = [" 123 "] ∧
      ¬(" 123 " : String) = "123" := by
  constructor
  · rfl
  · decide

/-- Claim C10 (amended): reconciling the remote record
`{Id 5, FullName "Jane Doe", BillingName "", Email "a@b.com",
BankBranch " 123 ", BankAccount " 456 "}` against a store with no member for
id 5 creates exactly one Member with billing name "Jane Doe" (fallback from
the blank remote billing name), bank routing `" 123 "` and bank account
`" 456 "` stored exactly as received (untrimmed), and `auto_process` equal to
the configured default (the bank fields are non-blank after trimming). -/
theorem c10_fresh_member_scenario :
    ∀ cfg : Bool,
      (add_or_overwrite_member cfg ⟨5, "Jane Doe", "", "a@b.com", " 123 ", " 456 "⟩
          ⟨[], []⟩).members =
        [{ nexudus_user_id := 5, fullname := "Jane Doe", billing_name := "Jane Doe",
            email := "a@b.com", routing_number := " 123 ", account_number := " 456 ",
            process_automatically := cfg }] := by
  intro cfg
  cases cfg <;> rfl

/-- Claim C7: over a remote feed whose continuation flag is true for pages
`1 .. N-1` and false on page `N` (with `N ≥ 1`), `get_records` without the
single-result flag yields exactly `N` batches — the records of pages
`1, 2, ..., N` in order — and then stops normally. -/
theorem c7_pagination_termination :
    ∀ {α : Type} (feed : Nat → NexudusPage α) (n fuel : Nat),
      1 ≤ n → n ≤ fuel →
      (∀ i, 1 ≤ i → i < n → (feed i).HasNextPage = true) →
      (feed n).HasNextPage = false →
      get_records feed false fuel =
        FetchOutcome.ok ((List.range n).map (fun i => (feed (i + 1)).Records)) := by
  intro α feed n fuel h1 hf hnext hlast
  unfold get_records
  have hmain := get_records_from_ok feed n fuel 0 h1 hf
    (fun i hi1 hi2 => hnext i (by omega) (by omega))
    (by
      show (feed (0 + n)).HasNextPage = false
      have h0n : 0 + n = n := by omega
      rw [h0n]
      exact hlast)
  rw [hmain]
  congr 1
  apply List.map_congr_left
  intro i _
  have harith : 0 + 1 + i = i + 1 := by omega
  rw [harith]

/-- Claim C7, witness: a two-page feed (continuation true on page 1, false on
page 2) yields exactly the two batches in page order. -/
theorem c7_witness :
    get_records (fun i => if i = 1 then (⟨5, true, [10, 20]⟩ : NexudusPage Nat)
        else ⟨5, false, [30]⟩) false 2 =
      FetchOutcome.ok [[10, 20], [30]] := by
  rw [c7_pagination_termination
    (fun i => if i = 1 then (⟨5, true, [10, 20]⟩ : NexudusPage Nat) else ⟨5, false, [30]⟩)
    2 2 (by omega) (by omega)
    (fun i hi1 hi2 => by
      have hi : i = 1 := by omega
      rw [hi]
      rfl)
    rfl]
  rfl

/-- Claim C8: a `get_records` call with the single-result flag set, against a
response whose reported `TotalItems` is not 1, raises
`MultipleResultsFoundException` on the first page and yields no batch. -/
theorem c8_single_result_contract :
    ∀ {α : Type} (feed : Nat → NexudusPage α) (fuel : Nat),
      1 ≤ fuel → ¬(feed 1).TotalItems = 1 →
      get_records feed true fuel = FetchOutcome.multipleResultsFound [] := by
  intro α feed fuel hf ht
  exact get_records_first_page_bad_total feed fuel hf ht

/-- Claim C8, witness: a single-result fetch against a reported total count
of 2 fails with the multiple-results condition and yields no record. -/
theorem c8_witness :
    get_records (fun _ => (⟨2, true, [7]⟩ : NexudusPage Nat)) true 3 =
      FetchOutcome.multipleResultsFound [] :=
  c8_single_result_contract (fun _ => (⟨2, true, [7]⟩ : NexudusPage Nat)) 3 (by omega)
    (by decide)

/-- Claim C9: inside a `sync_table` run, a `KeyError` raised while
reconciling one record is caught, logged with the failing key name, and the
loop continues with the next record of the batch; any other exception raised
by reconciliation stops the batch loop and propagates, and an exception
raised by the fetch itself (after its batches were processed) propagates
uncaught to the caller. -/
theorem c9_per_record_isolation :
    (∀ {R : Type} (f : R → Store → Store × Option RecordSyncError) (r : R) (rs : List R)
        (s s' : Store) (log : List String) (k : String),
      f r s = (s', some (RecordSyncError.keyError k)) →
      sync_table_callback f (r :: rs) s log =
        sync_table_callback f rs s' (log ++ [key_error_log_message k])) ∧
    (∀ {R : Type} (f : R → Store → Store × Option RecordSyncError) (r : R) (rs : List R)
        (s s' : Store) (log : List String) (msg : String),
      f r s = (s', some (RecordSyncError.otherError msg)) →
      sync_table_callback f (r :: rs) s log =
        (s', log, some (RecordSyncError.otherError msg))) ∧
    (∀ {R : Type} (f : R → Store → Store × Option RecordSyncError)
        (batches : List (List R)) (s s' : Store) (log' : List String) (e : RecordSyncError),
      sync_table_batches f batches s [] = (s', log', none) →
      sync_table_fallible f batches (some e) s = (s', log', some e)) := by
  refine ⟨?_, ?_, ?_⟩
  · intro R f r rs s s' log k h
    exact sync_table_callback_key_error f r rs s s' log k h
  · intro R f r rs s s' log msg h
    exact sync_table_callback_other_error f r rs s s' log msg h
  · intro R f batches s s' log' e h
    exact sync_table_fallible_fetch_error f batches s s' log' e h

/-- Claim C9, witness: a probe action raising `KeyError "Id"` on record 0 is
caught and logged and the loop continues; raising another exception on record
1 aborts with that exception; a fetch failure after an uneventful batch
propagates. -/
theorem c9_witness :
    (sync_table_callback (fun (r : Nat) (s : Store) =>
        if r = 0 then (s, some (RecordSyncError.keyError "Id"))
        else if r = 1 then (s, some (RecordSyncError.otherError "connection reset"))
        else (s, none)) [0, 2] ⟨[], []⟩ [] =
      sync_table_callback (fun (r : Nat) (s : Store) =>
        if r = 0 then (s, some (RecordSyncError.keyError "Id"))
        else if r = 1 then (s, some (RecordSyncError.otherError "connection reset"))
        else (s, none)) [2] ⟨[], []⟩ ([] ++ [key_error_log_message "Id"])) ∧
    (sync_table_callback (fun (r : Nat) (s : Store) =>
        if r = 0 then (s, some (RecordSyncError.keyError "Id"))
        else if r = 1 then (s, some (RecordSyncError.otherError "connection reset"))
        else (s, none)) [1, 2] ⟨[], []⟩ [] =
      (⟨[], []⟩, [], some (RecordSyncError.otherError "connection reset"))) ∧
    (sync_table_fallible (fun (r : Nat) (s : Store) =>
        if r = 0 then (s, some (RecordSyncError.keyError "Id"))
        else if r = 1 then (s, some (RecordSyncError.otherError "connection reset"))
        else (s, none)) [[2]] (some (RecordSyncError.otherError "timeout")) ⟨[], []⟩ =
      (⟨[], []⟩, [], some (RecordSyncError.otherError "timeout"))) := by
  refine ⟨?_, ?_, ?_⟩
  · exact c9_per_record_isolation.1 _ 0 [2] ⟨[], []⟩ ⟨[], []⟩ [] "Id" rfl
  · exact c9_per_record_isolation.2.1 _ 1 [2] ⟨[], []⟩ ⟨[], []⟩ [] "connection reset" rfl
  · exact c9_per_record_isolation.2.2 _ [[2]] ⟨[], []⟩ ⟨[], []⟩ []
      (RecordSyncError.otherError "timeout") rfl

end NexudusGateway
